import Mathlib

/-!
Verification of the cross-frame invocation protocol implemented in
`src/ext/js/comm/cross-frame-api.js` (classes `CrossFrameAPIPort` and
`CrossFrameAPI`).

The mutable JavaScript state is embedded as explicit state passing:
each method of `CrossFrameAPIPort` becomes a function
`PortState -> PortState × List Out`, where `Out` records the externally
observable effects (promise resolutions delivered to callers, the
`disconnect` event, log warnings).  The JavaScript `Map`s become
association lists with the insertion-order semantics of `Map`.
-/

namespace CrossFrameApi

/-- Association-list lookup, modelling JavaScript `Map.get` (keys are unique in
a `Map`). -/
def alGet {κ β : Type} [DecidableEq κ] (k : κ) : List (κ × β) → Option β
  | [] => none
  | (k2, v) :: rest => if k2 = k then some v else alGet k rest

/-- Modelling JavaScript `Map.has`. -/
def alHas {κ β : Type} [DecidableEq κ] (k : κ) (l : List (κ × β)) : Bool :=
  (alGet k l).isSome

/-- Modelling JavaScript `Map.set`: replace the value in place if the key is
present, otherwise append (a `Map` iterates in insertion order). -/
def alSet {κ β : Type} [DecidableEq κ] (k : κ) (v : β) : List (κ × β) → List (κ × β)
  | [] => [(k, v)]
  | (k2, v2) :: rest => if k2 = k then (k2, v) :: rest else (k2, v2) :: alSet k v rest

/-- Modelling JavaScript `Map.delete`: remove the entry for the key and report
whether an entry was removed. -/
def alDelete {κ β : Type} [DecidableEq κ] (k : κ) : List (κ × β) → List (κ × β) × Bool
  | [] => ([], false)
  | (k2, v) :: rest =>
      if k2 = k then (rest, true)
      else
        let r := alDelete k rest
        ((k2, v) :: r.1, r.2)

/-- Removal of a key from an association list (the effect of `Map.delete` on
the entries; a `Map` holds at most one entry per key, so this filter removes
exactly that entry). -/
def alErase {κ β : Type} [DecidableEq κ] (k : κ) (l : List (κ × β)) : List (κ × β) :=
  l.filter (fun p => p.1 ≠ k)

/-- Which timeout the single live timer of an invocation is currently running
(`invocation.timer` holds the `setTimeout` handle for the acknowledgement
timeout or for the response timeout, or `null`). -/
inductive TimerKind
  | ackTimer
  | responseTimer
deriving DecidableEq

/-- One in-flight invocation as stored in `CrossFrameAPIPort._activeInvocations`
(the `resolve`/`reject` continuations of the promise are represented by the
emitted `Out` events rather than stored). -/
structure Invocation where
  action : String
  ack : Bool
  timer : Option TimerKind
  responseTimeout : Option Nat
deriving DecidableEq

/-- Mutable state of one `CrossFrameAPIPort`: whether `_port` is non-null,
the `_invocationId` counter, and the `_activeInvocations` table. -/
structure PortState where
  connected : Bool
  invocationId : Nat
  activeInvocations : List (Nat × Invocation)
deriving DecidableEq

/-- How a rejection reached the caller: `_onResult` rejects with
`ExtensionError.deserialize(error)` applied to the wire error descriptor, while
`_onError` rejects with a local `Error`, wrapping a non-`Error` argument into
an `Error` whose message mentions the action of the invocation. -/
inductive RejectReason
  | remoteError (desc : String)
  | localError (msg : String)
deriving DecidableEq

/-- Observable outputs of a port: terminal resolutions delivered to callers
(tagged with the invocation id), the immediate rejection produced by calling
`invoke` on a disconnected port (that promise is never entered into the table,
so it carries no id), the `disconnect` event triggered towards the owning
`CrossFrameAPI`, and log warnings. -/
inductive Out
  | resolved (id : Nat) (value : Option String)
  | rejected (id : Nat) (reason : RejectReason)
  | disconnectedInvokeReject (action : String)
  | disconnectNotify
  | logWarn (msg : String)
deriving DecidableEq

/-- Argument received by `_onError`: either a plain value (wrapped into an
`Error` mentioning the action) or an object that already is an `Error`
(used as is). -/
inductive ErrParam
  | plain (s : String)
  | errObj (s : String)
deriving DecidableEq

/-- Data field of a `result` message: the protocol intends exactly one of
`error` / `result` to be present, but the code only tests whether `error` is
defined. -/
structure ResponseData where
  error : Option String
  result : Option String
deriving DecidableEq

/-- Embedding of `CrossFrameAPIPort._onError`: look up the invocation and
return silently if it is absent; otherwise remove it from the table, clear its
timer, and reject its promise. -/
def onError (id : Nat) (e : ErrParam) (s : PortState) : PortState × List Out :=
  match alGet id s.activeInvocations with
  | none => (s, [])
  | some inv =>
      let msg := match e with
        | ErrParam.plain m => m ++ " (" ++ inv.action ++ ")"
        | ErrParam.errObj m => m
      ({ s with activeInvocations := alErase id s.activeInvocations },
       [Out.rejected id (RejectReason.localError msg)])

/-- In-place mutation of the invocation stored under `id` (the JavaScript code
mutates the object held by the `Map`, so its key and position are unchanged). -/
def updateInv (id : Nat) (inv : Invocation) (l : List (Nat × Invocation)) :
    List (Nat × Invocation) :=
  l.map (fun p => if p.1 = id then (p.1, inv) else p)

/-- Embedding of `CrossFrameAPIPort._onAck`.  When the response timer is armed,
`timerFail` models `setTimeout` throwing (the `catch` branch calls `_onError`
with "Failed to set timeout"). -/
def onAck (id : Nat) (timerFail : Bool) (s : PortState) : PortState × List Out :=
  match alGet id s.activeInvocations with
  | none =>
      (s, [Out.logWarn ("Request " ++ toString id ++ " not found for acknowledgement")])
  | some inv =>
      if inv.ack then
        onError id (ErrParam.plain ("Request " ++ toString id ++ " already acknowledged")) s
      else
        let inv1 : Invocation := { inv with ack := true, timer := none }
        match inv.responseTimeout with
        | none => ({ s with activeInvocations := updateInv id inv1 s.activeInvocations }, [])
        | some _ =>
            if timerFail then
              onError id (ErrParam.plain "Failed to set timeout")
                { s with activeInvocations := updateInv id inv1 s.activeInvocations }
            else
              let inv2 : Invocation := { inv1 with timer := some TimerKind.responseTimer }
              ({ s with activeInvocations := updateInv id inv2 s.activeInvocations }, [])

/-- Embedding of `CrossFrameAPIPort._onResult`: absent id logs a warning; an
unacknowledged invocation is failed through `_onError`; otherwise the entry is
removed, its timer cleared, and the promise rejected with the deserialized
error when `data.error` is defined, else resolved with `data.result`. -/
def onResult (id : Nat) (data : ResponseData) (s : PortState) : PortState × List Out :=
  match alGet id s.activeInvocations with
  | none => (s, [Out.logWarn ("Request " ++ toString id ++ " not found")])
  | some inv =>
      if !inv.ack then
        onError id (ErrParam.plain ("Request " ++ toString id ++ " not acknowledged")) s
      else
        let s1 : PortState := { s with activeInvocations := alErase id s.activeInvocations }
        match data.error with
        | some e => (s1, [Out.rejected id (RejectReason.remoteError e)])
        | none => (s1, [Out.resolved id data.result])

/-- Embedding of `CrossFrameAPIPort.invoke`.  The timeouts are nullable (the
code tests `ackTimeout !== null` and `responseTimeout !== null`); `timerFail`
models `setTimeout` throwing (in which case the invocation is failed and
`postMessage` is never attempted) and `postFail` models `port.postMessage`
throwing (failing the invocation through `_onError`). -/
def invoke (action : String) (ackTimeout responseTimeout : Option Nat)
    (timerFail postFail : Bool) (s : PortState) : PortState × List Out :=
  if s.connected = false then
    (s, [Out.disconnectedInvokeReject action])
  else
    let id := s.invocationId
    let inv0 : Invocation :=
      { action := action, ack := false, timer := none, responseTimeout := responseTimeout }
    let s1 : PortState :=
      { s with invocationId := id + 1,
               activeInvocations := alSet id inv0 s.activeInvocations }
    match ackTimeout with
    | some _ =>
        if timerFail then
          onError id (ErrParam.plain "Failed to set timeout") s1
        else
          let inv2 : Invocation := { inv0 with timer := some TimerKind.ackTimer }
          let s2 : PortState :=
            { s1 with activeInvocations := updateInv id inv2 s1.activeInvocations }
          if postFail then onError id (ErrParam.errObj "postMessage failed") s2 else (s2, [])
    | none =>
        if postFail then onError id (ErrParam.errObj "postMessage failed") s1 else (s1, [])

/-- Loop body of `_onDisconnect`: fail each listed invocation id with
"Disconnected" (each `_onError` call removes exactly the id it is given, so
iterating over the keys of the table while deleting is safe). -/
def failAllLoop (ids : List Nat) (s : PortState) : PortState × List Out :=
  match ids with
  | [] => (s, [])
  | id :: rest =>
      let r1 := onError id (ErrParam.plain "Disconnected") s
      let r2 := failAllLoop rest r1.1
      (r2.1, r1.2 ++ r2.2)

/-- Embedding of `CrossFrameAPIPort._onDisconnect`, which is also the entire
body of the public `disconnect()` method and the handler of the transport
disconnect event: when the port is already null do nothing; otherwise null the
port, fail every active invocation with "Disconnected", and trigger the
`disconnect` event exactly once. -/
def onDisconnect (s : PortState) : PortState × List Out :=
  if s.connected = false then (s, [])
  else
    let s0 : PortState := { s with connected := false }
    let r := failAllLoop (s0.activeInvocations.map Prod.fst) s0
    (r.1, r.2 ++ [Out.disconnectNotify])

/-- External events driving one port: an outgoing `invoke` call, incoming
`ack` and `result` messages, a locally raised failure (a timer expiry delivers
`_onError` with the corresponding timeout message; the event also covers any
other direct `_onError` call), and the transport disconnect. -/
inductive Event
  | invokeCall (action : String) (ackTimeout responseTimeout : Option Nat)
      (timerFail postFail : Bool)
  | ackMsg (id : Nat) (timerFail : Bool)
  | resultMsg (id : Nat) (data : ResponseData)
  | localFail (id : Nat) (e : ErrParam)
  | disconnectEvent
deriving DecidableEq

/-- Dispatch of one event to the corresponding port method (`_onMessage`
routes `ack` and `result` by their `type` tag). -/
def step : Event → PortState → PortState × List Out
  | Event.invokeCall a akt rt tf pf, s => invoke a akt rt tf pf s
  | Event.ackMsg id tf, s => onAck id tf s
  | Event.resultMsg id d, s => onResult id d s
  | Event.localFail id e, s => onError id e s
  | Event.disconnectEvent, s => onDisconnect s

/-- Run a sequence of events, accumulating the outputs in order. -/
def run : List Event → PortState → PortState × List Out
  | [], s => (s, [])
  | e :: rest, s =>
      let r1 := step e s
      let r2 := run rest r1.1
      (r2.1, r1.2 ++ r2.2)

/-- State of a freshly constructed and prepared port. -/
def initialState : PortState :=
  { connected := true, invocationId := 0, activeInvocations := [] }

/-- Invocation id for which an output delivers a terminal resolution
(resolve or reject) to a caller, if any. -/
def outId : Out → Option Nat
  | Out.resolved id _ => some id
  | Out.rejected id _ => some id
  | _ => none

/-- Number of terminal resolutions delivered for invocation `id` in an output
trace. -/
def resCount (id : Nat) (out : List Out) : Nat :=
  out.countP (fun o => outId o = some id)

/-- Embedding of `CrossFrameAPI.registerHandlers`: iterate over the pairs,
throwing as soon as a key is already present in the table; pairs processed
before the throw have already been inserted.  The result is the table as
mutated so far together with the error message, if any. -/
def registerHandlers {α : Type} (messageHandlers : List (String × α))
    (table : List (String × α)) : List (String × α) × Option String :=
  match messageHandlers with
  | [] => (table, none)
  | (k, v) :: rest =>
      if alHas k table then
        (table, some ("Handler " ++ k ++ " is already registered"))
      else
        registerHandlers rest (alSet k v table)

/-- Embedding of `CrossFrameAPI.unregisterHandler`: exactly `Map.delete`,
returning the new table together with whether an entry was removed. -/
def unregisterHandler {α : Type} (k : String) (table : List (String × α)) :
    List (String × α) × Bool :=
  alDelete k table

/-- Observable steps of `CrossFrameAPIPort._onInvoke`, in program order. -/
inductive InvokeStep
  | lookupHandler (action : String)
  | sendAck (id : Nat)
  | sendResult (id : Nat) (isError : Bool)
  | runHandler (action : String)
deriving DecidableEq

/-- Embedding of `CrossFrameAPIPort._onInvoke(id, {action, params})` as its
ordered list of observable steps: the method first reads
`_messageHandlers.get(action)`, then sends the `ack`, then either sends an
"Unknown action" error result (when no handler is registered) or runs the
handler (handler execution through `invokeMessageHandler` and its completion
callback live outside this source file and are represented by the single
`runHandler` step; the eventual callback sends the `result`). -/
def onInvoke {α : Type} (messageHandlers : List (String × α)) (id : Nat)
    (action : String) : List InvokeStep :=
  let messageHandler := alGet action messageHandlers
  [InvokeStep.lookupHandler action, InvokeStep.sendAck id] ++
    (match messageHandler with
     | none => [InvokeStep.sendResult id true]
     | some _ => [InvokeStep.runHandler action])

/-- One of the two concurrent callers in the duplicated `getOrCreate`
scenario. -/
inductive Caller
  | A
  | B
deriving DecidableEq

/-- Progress of one call to `CrossFrameAPI._getOrCreateCommPort`: not yet
started, suspended on the `await` of `yomitan.api.openCrossFramePort` (with the
target key and whether that broker call has completed), or finished with
`some port` on success and `none` for the thrown "Comm port" open failure. -/
inductive CallerPhase
  | idle
  | awaitingBroker (tab frame : Nat) (brokerDone : Bool)
  | done (result : Option Nat)
deriving DecidableEq

/-- State of the registry scenario: the two-level `CrossFrameAPI._commPorts`
map (tab id to frame id to port instance), a counter numbering the
`CrossFrameAPIPort` instances constructed by `_setupCommPort` (distinct numbers
are distinct channel objects), the queue of outstanding broker requests, and
the two callers. -/
structure RegState where
  commPorts : List (Nat × List (Nat × Nat))
  nextPort : Nat
  pendingBroker : List (Nat × Nat × Caller)
  phaseA : CallerPhase
  phaseB : CallerPhase
deriving DecidableEq

/-- Registry lookup used at both check points of `_getOrCreateCommPort` and
`_createCommPort`: `_commPorts.get(tab)` followed by `.get(frame)`. -/
def getCommPort (tab frame : Nat) (m : List (Nat × List (Nat × Nat))) : Option Nat :=
  match alGet tab m with
  | none => none
  | some inner => alGet frame inner

/-- Embedding of `CrossFrameAPI._setupCommPort`: construct a fresh
`CrossFrameAPIPort` and insert it under (tab, frame), creating the inner map if
absent; a prior entry for the exact key is overwritten.  Returns the new port
instance number. -/
def setupCommPort (tab frame : Nat) (s : RegState) : Nat × RegState :=
  let port := s.nextPort
  let inner := match alGet tab s.commPorts with
    | none => []
    | some i => i
  (port, { s with nextPort := port + 1,
                  commPorts := alSet tab (alSet frame port inner) s.commPorts })

/-- Phase of the given caller. -/
def phaseOf (c : Caller) (s : RegState) : CallerPhase :=
  match c with
  | Caller.A => s.phaseA
  | Caller.B => s.phaseB

/-- Replace the phase of the given caller. -/
def setPhase (c : Caller) (p : CallerPhase) (s : RegState) : RegState :=
  match c with
  | Caller.A => { s with phaseA := p }
  | Caller.B => { s with phaseB := p }

/-- Interleaving events of the two-caller scenario; each event is one atomic
section of the single-threaded event loop. -/
inductive RegEvent
  | start (c : Caller) (tab frame : Nat)
  | brokerAccept
  | resume (c : Caller)
deriving DecidableEq

/-- One scheduler step.  `start` runs the synchronous prefix of
`_getOrCreateCommPort`: return the registered port when one is present,
otherwise issue the broker request (`yomitan.api.openCrossFramePort`) and
suspend.  `brokerAccept` completes the oldest outstanding broker request.
Modelled from the spec: `yomitan.api.openCrossFramePort` itself is not under
the sources given here; per the external-interface contract, each broker call
asynchronously causes a transport to be established and, on success, results
in the accept path (`_onConnect` followed by `_setupCommPort`) registering a
new channel, after which the await of the requesting caller is ready.
`resume` runs the remainder of `_createCommPort` after its `await`: re-check
the registry, returning the port found there, or failing (result `none`) when
none is registered.  Events that do not apply in the current state are
no-ops. -/
def regStep (e : RegEvent) (s : RegState) : RegState :=
  match e with
  | RegEvent.start c tab frame =>
      match phaseOf c s with
      | CallerPhase.idle =>
          match getCommPort tab frame s.commPorts with
          | some p => setPhase c (CallerPhase.done (some p)) s
          | none =>
              setPhase c (CallerPhase.awaitingBroker tab frame false)
                { s with pendingBroker := s.pendingBroker ++ [(tab, frame, c)] }
      | _ => s
  | RegEvent.brokerAccept =>
      match s.pendingBroker with
      | [] => s
      | (tab, frame, c) :: rest =>
          let r := setupCommPort tab frame { s with pendingBroker := rest }
          match phaseOf c r.2 with
          | CallerPhase.awaitingBroker t2 f2 _ =>
              setPhase c (CallerPhase.awaitingBroker t2 f2 true) r.2
          | _ => r.2
  | RegEvent.resume c =>
      match phaseOf c s with
      | CallerPhase.awaitingBroker tab frame true =>
          match getCommPort tab frame s.commPorts with
          | some p => setPhase c (CallerPhase.done (some p)) s
          | none => setPhase c (CallerPhase.done none) s
      | _ => s

/-- Run a schedule of registry events. -/
def regRun (es : List RegEvent) (s : RegState) : RegState :=
  match es with
  | [] => s
  | e :: rest => regRun rest (regStep e s)

/-- Initial registry state: empty registry, no pending broker requests, both
callers not yet started. -/
def regInit : RegState :=
  { commPorts := [], nextPort := 0, pendingBroker := [],
    phaseA := CallerPhase.idle, phaseB := CallerPhase.idle }

/-- Concrete interleaving: both callers start (and issue broker requests)
before either transport is accepted; the first transport is accepted, caller A
resumes; the second transport is accepted (overwriting the registry entry),
caller B resumes. -/
def twoCallerSchedule : List RegEvent :=
  [RegEvent.start Caller.A 1 2, RegEvent.start Caller.B 1 2, RegEvent.brokerAccept,
   RegEvent.resume Caller.A, RegEvent.brokerAccept, RegEvent.resume Caller.B]

/-- Invariant maintained by every port run: tracked ids are distinct and below
the id counter; an allocated id has received no terminal resolution while it is
still tracked and exactly one once it has left the table; unallocated ids have
received none; a disconnected port tracks nothing. -/
structure PortInv (s : PortState) (out : List Out) : Prop where
  nodup : (s.activeInvocations.map Prod.fst).Nodup
  lt : ∀ i ∈ s.activeInvocations.map Prod.fst, i < s.invocationId
  tracked : ∀ i, i < s.invocationId →
      resCount i out = if i ∈ s.activeInvocations.map Prod.fst then 0 else 1
  fresh : ∀ i, s.invocationId ≤ i → resCount i out = 0
  empty : s.connected = false → s.activeInvocations = []

/-- Sample invocation used by witnesses: not yet acknowledged. -/
def sampleInv : Invocation :=
  { action := "testAction", ack := false, timer := some TimerKind.ackTimer,
    responseTimeout := some 10 }

/-- Sample port state: one tracked, unacknowledged invocation. -/
def samplePending : PortState :=
  { connected := true, invocationId := 1, activeInvocations := [(0, sampleInv)] }

/-- Sample port state: one tracked, acknowledged invocation. -/
def sampleAcked : PortState :=
  { connected := true, invocationId := 1,
    activeInvocations :=
      [(0, { sampleInv with ack := true, timer := some TimerKind.responseTimer })] }

/-- Sample port state of a disconnected port. -/
def sampleDisconnected : PortState :=
  { connected := false, invocationId := 5, activeInvocations := [] }

/-- Sample event sequence: one invocation started, then the transport
disconnects. -/
def witnessEvents : List Event :=
  [Event.invokeCall "a" (some 3) (some 5) false false, Event.disconnectEvent]

/-- Sample registry state: a channel (port instance 7) is already registered
under (tab 1, frame 2). -/
def sampleRegistered : RegState :=
  { commPorts := [(1, [(2, 7)])], nextPort := 8, pendingBroker := [],
    phaseA := CallerPhase.idle, phaseB := CallerPhase.idle }

lemma alGet_some_mem {κ β : Type} [DecidableEq κ] {k : κ} {v : β} :
    ∀ {l : List (κ × β)}, alGet k l = some v → k ∈ l.map Prod.fst := by
  intro l
  induction l with
  | nil => intro h; simp [alGet] at h
  | cons p rest ih =>
      obtain ⟨k2, v2⟩ := p
      intro h
      simp only [alGet] at h
      by_cases hk : k2 = k
      · simp [hk]
      · rw [if_neg hk] at h
        simp [ih h]

lemma mem_map_fst_alErase {κ β : Type} [DecidableEq κ] (j k : κ) (l : List (κ × β)) :
    j ∈ (alErase k l).map Prod.fst ↔ j ∈ l.map Prod.fst ∧ j ≠ k := by
  unfold alErase
  constructor
  · intro h
    obtain ⟨p, hp, rfl⟩ := List.mem_map.mp h
    have h2 := List.mem_filter.mp hp
    exact ⟨List.mem_map_of_mem _ h2.1, by simpa using h2.2⟩
  · rintro ⟨h1, h2⟩
    obtain ⟨p, hp, rfl⟩ := List.mem_map.mp h1
    exact List.mem_map_of_mem _ (List.mem_filter.mpr ⟨hp, by simpa using h2⟩)

lemma nodup_alErase {κ β : Type} [DecidableEq κ] (k : κ) (l : List (κ × β))
    (h : (l.map Prod.fst).Nodup) : ((alErase k l).map Prod.fst).Nodup :=
  ((List.filter_sublist l).map Prod.fst).nodup h

lemma alErase_eq_self {κ β : Type} [DecidableEq κ] (k : κ) (l : List (κ × β))
    (h : k ∉ l.map Prod.fst) : alErase k l = l := by
  unfold alErase
  apply List.filter_eq_self.mpr
  intro p hp
  simp only [ne_eq, decide_eq_true_eq]
  intro hk
  exact h (hk ▸ List.mem_map_of_mem Prod.fst hp)

lemma alErase_cons_self {κ β : Type} [DecidableEq κ] (k : κ) (v : β)
    (tl : List (κ × β)) (h : k ∉ tl.map Prod.fst) : alErase k ((k, v) :: tl) = tl := by
  unfold alErase
  rw [List.filter_cons]
  simp only [ne_eq, not_true_eq_false, decide_False]
  exact alErase_eq_self k tl h

lemma alSet_not_mem {κ β : Type} [DecidableEq κ] (k : κ) (v : β) (l : List (κ × β))
    (h : k ∉ l.map Prod.fst) : alSet k v l = l ++ [(k, v)] := by
  induction l with
  | nil => rfl
  | cons p rest ih =>
      obtain ⟨k2, v2⟩ := p
      simp only [List.map_cons, List.mem_cons] at h
      push_neg at h
      simp only [alSet]
      rw [if_neg (fun he => h.1 he.symm), ih h.2]
      rfl

lemma map_fst_updateInv (id : Nat) (inv : Invocation) (l : List (Nat × Invocation)) :
    (updateInv id inv l).map Prod.fst = l.map Prod.fst := by
  induction l with
  | nil => rfl
  | cons p rest ih =>
      simp only [updateInv, List.map_cons] at ih ⊢
      have hfst : (if p.1 = id then (p.1, inv) else p).1 = p.1 := by
        split <;> rfl
      rw [hfst, ih]

/-- C4: for a tracked invocation whose acknowledged flag is still false,
receiving a `result` message for its id runs `_onError` with "Request (id) not
acknowledged": the entry is removed from the table and the promise of the
caller is rejected with that protocol-violation error, never resolved with the
payload value. -/
theorem result_before_ack_rejects (s : PortState) (id : Nat) (inv : Invocation)
    (data : ResponseData) (hl : alGet id s.activeInvocations = some inv)
    (ha : inv.ack = false) :
    onResult id data s =
      ({ s with activeInvocations := alErase id s.activeInvocations },
       [Out.rejected id (RejectReason.localError
         ("Request " ++ toString id ++ " not acknowledged" ++ " (" ++ inv.action ++ ")"))]) := by
  unfold onResult onError
  rw [hl]
  simp [ha]

/-- Witness for C4 at a concrete state: the pending invocation 0 of
`samplePending` is unacknowledged, and a `result` for id 0 rejects it. -/
theorem result_before_ack_rejects_witness :
    alGet 0 samplePending.activeInvocations = some sampleInv ∧
    sampleInv.ack = false ∧
    onResult 0 { error := none, result := some "v" } samplePending =
      ({ samplePending with activeInvocations := [] },
       [Out.rejected 0 (RejectReason.localError "Request 0 not acknowledged (testAction)")]) :=
  ⟨rfl, rfl,
    (result_before_ack_rejects samplePending 0 sampleInv
      { error := none, result := some "v" } rfl rfl).trans (by decide)⟩

/-- C5: for a tracked invocation whose acknowledged flag is already true,
receiving a second `ack` for its id runs `_onError` with "Request (id) already
acknowledged": the entry is removed from the table and the promise of the
caller rejected with that protocol-violation error. -/
theorem double_ack_rejects (s : PortState) (id : Nat) (inv : Invocation) (tf : Bool)
    (hl : alGet id s.activeInvocations = some inv) (ha : inv.ack = true) :
    onAck id tf s =
      ({ s with activeInvocations := alErase id s.activeInvocations },
       [Out.rejected id (RejectReason.localError
         ("Request " ++ toString id ++ " already acknowledged" ++ " (" ++ inv.action ++ ")"))]) := by
  unfold onAck onError
  rw [hl]
  simp [ha]

/-- Witness for C5 at a concrete state: the invocation 0 of `sampleAcked` is
acknowledged, and a second `ack` for id 0 rejects and removes it. -/
theorem double_ack_rejects_witness :
    alGet 0 sampleAcked.activeInvocations =
      some { sampleInv with ack := true, timer := some TimerKind.responseTimer } ∧
    onAck 0 false sampleAcked =
      ({ sampleAcked with activeInvocations := [] },
       [Out.rejected 0 (RejectReason.localError "Request 0 already acknowledged (testAction)")]) :=
  ⟨rfl,
    (double_ack_rejects sampleAcked 0
      { sampleInv with ack := true, timer := some TimerKind.responseTimer } false
      rfl rfl).trans (by decide)⟩

/-- C6: calling `invoke` on a channel whose `_port` is already null rejects the
returned promise immediately with the disconnected-port error and returns the
state completely unchanged: the `_invocationId` counter is not advanced,
nothing is inserted into `_activeInvocations`, and no timer is armed. -/
theorem invoke_on_disconnected (s : PortState) (action : String)
    (ackTimeout responseTimeout : Option Nat) (timerFail postFail : Bool)
    (h : s.connected = false) :
    invoke action ackTimeout responseTimeout timerFail postFail s =
      (s, [Out.disconnectedInvokeReject action]) := by
  unfold invoke
  simp [h]

/-- Witness for C6 at a concrete disconnected state. -/
theorem invoke_on_disconnected_witness :
    sampleDisconnected.connected = false ∧
    invoke "z" (some 3) (some 5) false false sampleDisconnected =
      (sampleDisconnected, [Out.disconnectedInvokeReject "z"]) :=
  ⟨rfl, invoke_on_disconnected sampleDisconnected "z" (some 3) (some 5) false false rfl⟩

/-- C10: for a tracked, acknowledged invocation, a `result` whose payload
defines `error` rejects the promise with the deserialized error even when a
success value is also present in the same payload; the success branch runs only
when `error` is undefined. -/
theorem result_error_precedence (s : PortState) (id : Nat) (inv : Invocation)
    (data : ResponseData) (hl : alGet id s.activeInvocations = some inv)
    (ha : inv.ack = true) :
    (∀ e, data.error = some e →
      onResult id data s =
        ({ s with activeInvocations := alErase id s.activeInvocations },
         [Out.rejected id (RejectReason.remoteError e)])) ∧
    (data.error = none →
      onResult id data s =
        ({ s with activeInvocations := alErase id s.activeInvocations },
         [Out.resolved id data.result])) := by
  unfold onResult
  rw [hl]
  constructor
  · intro e he
    simp [ha, he]
  · intro he
    simp [ha, he]

/-- Witness for C10 at a concrete state: a payload carrying both an error and
a success value rejects with the error. -/
theorem result_error_precedence_witness :
    alGet 0 sampleAcked.activeInvocations =
      some { sampleInv with ack := true, timer := some TimerKind.responseTimer } ∧
    onResult 0 { error := some "boom", result := some "v" } sampleAcked =
      ({ sampleAcked with activeInvocations := [] },
       [Out.rejected 0 (RejectReason.remoteError "boom")]) :=
  ⟨rfl,
    ((result_error_precedence sampleAcked 0
        { sampleInv with ack := true, timer := some TimerKind.responseTimer }
        { error := some "boom", result := some "v" } rfl rfl).1 "boom" rfl).trans
      (by decide)⟩

lemma alDelete_snd_eq_alHas {κ β : Type} [DecidableEq κ] (k : κ) (l : List (κ × β)) :
    (alDelete k l).2 = alHas k l := by
  induction l with
  | nil => rfl
  | cons p rest ih =>
      obtain ⟨k2, v⟩ := p
      by_cases hk : k2 = k
      · simp [alDelete, alHas, alGet, hk]
      · simp only [alDelete, alHas, alGet, if_neg hk] at ih ⊢
        exact ih

lemma alDelete_of_not_has {κ β : Type} [DecidableEq κ] (k : κ) (l : List (κ × β))
    (h : alHas k l = false) : alDelete k l = (l, false) := by
  induction l with
  | nil => rfl
  | cons p rest ih =>
      obtain ⟨k2, v⟩ := p
      by_cases hk : k2 = k
      · simp [alHas, alGet, hk] at h
      · simp only [alHas, alGet, if_neg hk] at h
        simp only [alDelete, if_neg hk, ih h]

/-- C8: registering a handler under an action name already present in the
dispatch table throws "Handler (name) is already registered" before inserting,
leaving the table unchanged (the existing handler is not replaced); and
`unregisterHandler` is a total function returning exactly whether an entry was
removed, leaving the table unchanged when the name is absent. -/
theorem register_duplicate_and_unregister {α : Type} (k : String) (v : α)
    (rest table : List (String × α)) (h : alHas k table = true) :
    registerHandlers ((k, v) :: rest) table =
      (table, some ("Handler " ++ k ++ " is already registered")) ∧
    (∀ (k2 : String) (t : List (String × α)), (unregisterHandler k2 t).2 = alHas k2 t) ∧
    (∀ (k2 : String) (t : List (String × α)),
      alHas k2 t = false → unregisterHandler k2 t = (t, false)) := by
  refine ⟨?_, ?_, ?_⟩
  · unfold registerHandlers
    rw [h]
    rfl
  · intro k2 t
    exact alDelete_snd_eq_alHas k2 t
  · intro k2 t ht
    exact alDelete_of_not_has k2 t ht

/-- Witness for C8: registering "a" into a table that already has "a" fails
and leaves the table unchanged; unregistering the absent "b" returns false. -/
theorem register_duplicate_and_unregister_witness :
    alHas "a" [("a", (1 : Nat))] = true ∧
    registerHandlers [("a", (2 : Nat))] [("a", 1)] =
      ([("a", 1)], some "Handler a is already registered") ∧
    unregisterHandler "b" [("a", (1 : Nat))] = ([("a", 1)], false) := by
  have h := register_duplicate_and_unregister "a" (2 : Nat) [] [("a", 1)] rfl
  exact ⟨rfl, h.1.trans (by decide), h.2.2 "b" [("a", 1)] rfl⟩

/-- C9: batch registration is not atomic.  If the pairs before position k all
register successfully (producing table2) and the k-th name is then already
present — whether it was in the original table or inserted by an earlier pair
of the same list — `registerHandlers` throws at the k-th pair with every
earlier pair already inserted and still registered, and the remaining pairs
unprocessed. -/
theorem registerHandlers_not_atomic {α : Type} (pre : List (String × α)) (k : String)
    (v : α) (rest table table2 : List (String × α))
    (h1 : registerHandlers pre table = (table2, none))
    (h2 : alHas k table2 = true) :
    registerHandlers (pre ++ (k, v) :: rest) table =
      (table2, some ("Handler " ++ k ++ " is already registered")) := by
  induction pre generalizing table with
  | nil =>
      simp only [registerHandlers, Prod.mk.injEq] at h1
      obtain ⟨rfl, -⟩ := h1
      rw [List.nil_append]
      unfold registerHandlers
      rw [h2]
      simp
  | cons p pre2 ih =>
      obtain ⟨k0, v0⟩ := p
      simp only [registerHandlers] at h1
      by_cases hk0 : alHas k0 table = true
      · rw [if_pos hk0] at h1
        simp at h1
      · rw [if_neg hk0] at h1
        rw [List.cons_append]
        unfold registerHandlers
        rw [Bool.not_eq_true] at hk0
        rw [hk0]
        rw [if_neg Bool.false_ne_true]
        exact ih (alSet k0 v0 table) h1

/-- Witness for C9: the list registers "a" and then "a" again into an empty
table; the second pair throws, and the first insertion remains. -/
theorem registerHandlers_not_atomic_witness :
    registerHandlers [("a", (1 : Nat))] [] = ([("a", 1)], none) ∧
    alHas "a" [("a", (1 : Nat))] = true ∧
    registerHandlers [("a", (1 : Nat)), ("a", 2)] [] =
      ([("a", 1)], some "Handler a is already registered") :=
  ⟨rfl, rfl, registerHandlers_not_atomic [("a", 1)] "a" (2 : Nat) [] [] [("a", 1)] rfl rfl⟩

/-- Counterexample to C2 as stated: in `_onInvoke` the read of
`_messageHandlers.get(action)` happens before `_sendAck(id)`, so the ack is not
sent before the handler lookup — at id 7, action "a", empty handler table, the
lookup step is at index 0 and the ack step at index 1 of the observable step
order of `_onInvoke`. -/
theorem onInvoke_lookup_precedes_ack :
    InvokeStep.sendAck 7 ∈ onInvoke ([] : List (String × Nat)) 7 "a" ∧
    InvokeStep.lookupHandler "a" ∈ onInvoke ([] : List (String × Nat)) 7 "a" ∧
    ¬ ((onInvoke ([] : List (String × Nat)) 7 "a").indexOf (InvokeStep.sendAck 7) <
       (onInvoke ([] : List (String × Nat)) 7 "a").indexOf
         (InvokeStep.lookupHandler "a")) := by
  decide

/-- C2 amended: when a channel receives an incoming `invoke(id, action, params)`
message, the handler lookup is performed first, then `ack(id)` is sent
unconditionally — before any handler logic runs and before any `result`
message is sent, whatever the lookup found. -/
theorem onInvoke_ack_before_handler {α : Type} (handlers : List (String × α))
    (id : Nat) (action : String) :
    ∃ rest, onInvoke handlers id action =
        InvokeStep.lookupHandler action :: InvokeStep.sendAck id :: rest ∧
      ∀ x ∈ rest, x = InvokeStep.sendResult id true ∨ x = InvokeStep.runHandler action := by
  unfold onInvoke
  cases alGet action handlers with
  | none => exact ⟨[InvokeStep.sendResult id true], rfl, by simp⟩
  | some f => exact ⟨[InvokeStep.runHandler action], rfl, by simp⟩

/-- Counterexample to C3 as stated: under the interleaving
`twoCallerSchedule` — both callers find no channel and issue broker requests
before either transport is accepted — caller A resolves to port instance 0 and
caller B to port instance 1, two distinct live channel instances for the same
key (1, 2); two instances were constructed in total. -/
theorem getOrCreate_concurrent_distinct :
    (regRun twoCallerSchedule regInit).phaseA = CallerPhase.done (some 0) ∧
    (regRun twoCallerSchedule regInit).phaseB = CallerPhase.done (some 1) ∧
    (regRun twoCallerSchedule regInit).nextPort = 2 := by
  decide

/-- C3 amended: the registry does not deduplicate in-flight creations, and two
`getOrCreate` calls that both start before any channel exists for the key can
each trigger a creation and resolve to two distinct channel instances.  What
does hold is that a `getOrCreate` issued while a channel is already registered
for the key resolves immediately to exactly that instance, constructing no new
channel, issuing no broker request, and leaving the registry unchanged. -/
theorem getOrCreate_existing_returns_registered (c : Caller) (tab frame p : Nat)
    (s : RegState) (hc : phaseOf c s = CallerPhase.idle)
    (hp : getCommPort tab frame s.commPorts = some p) :
    regStep (RegEvent.start c tab frame) s = setPhase c (CallerPhase.done (some p)) s ∧
    (regStep (RegEvent.start c tab frame) s).commPorts = s.commPorts ∧
    (regStep (RegEvent.start c tab frame) s).nextPort = s.nextPort ∧
    (regStep (RegEvent.start c tab frame) s).pendingBroker = s.pendingBroker := by
  have h : regStep (RegEvent.start c tab frame) s =
      setPhase c (CallerPhase.done (some p)) s := by
    simp only [regStep]
    rw [hc, hp]
  refine ⟨h, ?_, ?_, ?_⟩ <;> rw [h] <;> cases c <;> rfl

/-- Witness for the amended C3 at a concrete registry state with port 7
registered under (1, 2). -/
theorem getOrCreate_existing_returns_registered_witness :
    phaseOf Caller.A sampleRegistered = CallerPhase.idle ∧
    getCommPort 1 2 sampleRegistered.commPorts = some 7 ∧
    regStep (RegEvent.start Caller.A 1 2) sampleRegistered =
      setPhase Caller.A (CallerPhase.done (some 7)) sampleRegistered :=
  ⟨rfl, rfl,
    (getOrCreate_existing_returns_registered Caller.A 1 2 7 sampleRegistered rfl rfl).1⟩

lemma failAllLoop_spec (l : List (Nat × Invocation)) (s : PortState)
    (hs : s.activeInvocations = l) (hn : (l.map Prod.fst).Nodup) :
    failAllLoop (l.map Prod.fst) s =
      ({ s with activeInvocations := [] },
       l.map (fun p => Out.rejected p.1
         (RejectReason.localError ("Disconnected" ++ " (" ++ p.2.action ++ ")")))) := by
  induction l generalizing s with
  | nil =>
      obtain ⟨c, i, a⟩ := s
      simp only at hs
      subst hs
      rfl
  | cons hd tl ih =>
      obtain ⟨k, inv⟩ := hd
      rw [List.map_cons, List.nodup_cons] at hn
      have h1 : onError k (ErrParam.plain "Disconnected") s =
          ({ s with activeInvocations := tl },
           [Out.rejected k (RejectReason.localError
             ("Disconnected" ++ " (" ++ inv.action ++ ")"))]) := by
        unfold onError
        rw [hs]
        have hg : alGet k ((k, inv) :: tl) = some inv := by simp [alGet]
        rw [hg]
        rw [alErase_cons_self k inv tl hn.1]
      have h2 := ih { s with activeInvocations := tl } rfl hn.2
      simp only [List.map_cons, failAllLoop]
      rw [h1]
      simp only
      rw [h2]
      simp

/-- C7: disconnecting a channel with tracked invocations rejects every one of
them — in table order — with the "Disconnected" error (wrapped by `_onError`
with the action of each invocation), leaves the invocation table empty, and
delivers the `disconnect` notification to the owning registry exactly once; a
second disconnect (whether from the public `disconnect()` or from the
transport, both of which run `_onDisconnect`) finds the port already null and
does nothing: no further rejections and no second notification. -/
theorem disconnect_fails_all_exactly_once (s : PortState) (hc : s.connected = true)
    (hn : (s.activeInvocations.map Prod.fst).Nodup) :
    onDisconnect s =
      ({ s with connected := false, activeInvocations := [] },
       s.activeInvocations.map (fun p => Out.rejected p.1
         (RejectReason.localError ("Disconnected" ++ " (" ++ p.2.action ++ ")")))
         ++ [Out.disconnectNotify]) ∧
    onDisconnect { s with connected := false, activeInvocations := [] } =
      ({ s with connected := false, activeInvocations := [] }, []) := by
  constructor
  · unfold onDisconnect
    rw [hc]
    rw [if_neg (by decide : ¬(true = false))]
    have h := failAllLoop_spec s.activeInvocations { s with connected := false } rfl hn
    simp only at h ⊢
    rw [h]
  · unfold onDisconnect
    rw [if_pos rfl]

/-- Witness for C7 on a concrete state with one pending invocation. -/
theorem disconnect_fails_all_exactly_once_witness :
    samplePending.connected = true ∧
    (samplePending.activeInvocations.map Prod.fst).Nodup ∧
    onDisconnect samplePending =
      ({ samplePending with connected := false, activeInvocations := [] },
       [Out.rejected 0 (RejectReason.localError "Disconnected (testAction)"),
        Out.disconnectNotify]) ∧
    onDisconnect { samplePending with connected := false, activeInvocations := [] } =
      ({ samplePending with connected := false, activeInvocations := [] }, []) := by
  have h := disconnect_fails_all_exactly_once samplePending rfl (by decide)
  exact ⟨rfl, by decide, h.1.trans (by decide), h.2⟩

lemma resCount_nil (i : Nat) : resCount i [] = 0 := rfl

lemma resCount_append (i : Nat) (a b : List Out) :
    resCount i (a ++ b) = resCount i a + resCount i b := by
  unfold resCount
  exact List.countP_append _ _ _

lemma resCount_cons (i : Nat) (o : Out) (out : List Out) :
    resCount i (o :: out) = (if outId o = some i then 1 else 0) + resCount i out := by
  unfold resCount
  rw [List.countP_cons]
  by_cases h : outId o = some i <;> simp [h, Nat.add_comm]

lemma resCount_single (i : Nat) (o : Out) :
    resCount i [o] = if outId o = some i then 1 else 0 := by
  rw [resCount_cons, resCount_nil]
  exact Nat.add_zero _

lemma portInv_append_nores (s : PortState) (out add : List Out)
    (hadd : ∀ o ∈ add, outId o = none) (h : PortInv s out) : PortInv s (out ++ add) := by
  obtain ⟨h1, h2, h3, h4, h5⟩ := h
  have hz : ∀ i, resCount i add = 0 := by
    intro i
    unfold resCount
    rw [List.countP_eq_zero]
    intro o ho
    simp [hadd o ho]
  refine ⟨h1, h2, ?_, ?_, h5⟩
  · intro i hi
    rw [resCount_append, hz, Nat.add_zero]
    exact h3 i hi
  · intro i hi
    rw [resCount_append, hz, Nat.add_zero]
    exact h4 i hi

lemma portInv_remove_emit (id : Nat) (o : Out) (s : PortState) (out : List Out)
    (hmem : id ∈ s.activeInvocations.map Prod.fst) (ho : outId o = some id)
    (h : PortInv s out) :
    PortInv { s with activeInvocations := alErase id s.activeInvocations } (out ++ [o]) := by
  obtain ⟨h1, h2, h3, h4, h5⟩ := h
  have hidlt : id < s.invocationId := h2 id hmem
  refine ⟨nodup_alErase id s.activeInvocations h1, ?_, ?_, ?_, ?_⟩
  · intro i hi
    rw [mem_map_fst_alErase] at hi
    exact h2 i hi.1
  · intro i hlt
    rw [resCount_append, resCount_single, ho]
    by_cases hii : i = id
    · subst hii
      rw [if_pos rfl]
      have hz := h3 i hlt
      rw [if_pos hmem] at hz
      rw [hz]
      have hnm : i ∉ (alErase i s.activeInvocations).map Prod.fst := by
        rw [mem_map_fst_alErase]
        simp
      rw [if_neg hnm]
    · rw [if_neg (fun he => hii (Option.some_injective _ he).symm), Nat.add_zero]
      have hmm : (i ∈ (alErase id s.activeInvocations).map Prod.fst) ↔
          i ∈ s.activeInvocations.map Prod.fst := by
        rw [mem_map_fst_alErase]
        simp [hii]
      rw [h3 i hlt]
      by_cases hm2 : i ∈ s.activeInvocations.map Prod.fst
      · rw [if_pos hm2, if_pos (hmm.mpr hm2)]
      · rw [if_neg hm2, if_neg (fun hx => hm2 (hmm.mp hx))]
  · intro i hge
    have hge2 : s.invocationId ≤ i := hge
    rw [resCount_append, resCount_single, ho]
    have hii : ¬(some id = some i) := by
      intro he
      have := (Option.some_injective _ he)
      omega
    rw [if_neg hii, Nat.add_zero]
    exact h4 i hge2
  · intro hc
    simp only
    rw [h5 hc]
    rfl

lemma onError_portInv (id : Nat) (e : ErrParam) (s : PortState) (out : List Out)
    (h : PortInv s out) : PortInv (onError id e s).1 (out ++ (onError id e s).2) := by
  unfold onError
  cases hg : alGet id s.activeInvocations with
  | none => simpa using h
  | some inv =>
      exact portInv_remove_emit id _ s out (alGet_some_mem hg) rfl h

lemma updateInv_portInv (id : Nat) (inv : Invocation) (s : PortState) (out : List Out)
    (h : PortInv s out) :
    PortInv { s with activeInvocations := updateInv id inv s.activeInvocations } out := by
  obtain ⟨h1, h2, h3, h4, h5⟩ := h
  refine ⟨?_, ?_, ?_, h4, ?_⟩
  · simp only [map_fst_updateInv]
    exact h1
  · simp only [map_fst_updateInv]
    exact h2
  · simp only [map_fst_updateInv]
    exact h3
  · intro hc
    simp only
    rw [h5 hc]
    rfl

lemma onAck_portInv (id : Nat) (tf : Bool) (s : PortState) (out : List Out)
    (h : PortInv s out) : PortInv (onAck id tf s).1 (out ++ (onAck id tf s).2) := by
  unfold onAck
  cases hg : alGet id s.activeInvocations with
  | none =>
      apply portInv_append_nores _ _ _ _ h
      intro o ho
      rw [List.mem_singleton] at ho
      subst ho
      rfl
  | some inv =>
      obtain ⟨iact, iack, itim, irt⟩ := inv
      cases iack with
      | true =>
          dsimp only
          rw [if_pos rfl]
          exact onError_portInv id _ s out h
      | false =>
          cases irt with
          | none =>
              dsimp only
              rw [if_neg (by decide : ¬(false = true))]
              simpa using updateInv_portInv id _ s out h
          | some rt =>
              cases tf with
              | true =>
                  dsimp only
                  rw [if_neg (by decide : ¬(false = true)), if_pos rfl]
                  exact onError_portInv id _ _ out (updateInv_portInv id _ s out h)
              | false =>
                  dsimp only
                  rw [if_neg (by decide : ¬(false = true)),
                    if_neg (by decide : ¬(false = true))]
                  simpa using updateInv_portInv id _ s out h

lemma onResult_portInv (id : Nat) (d : ResponseData) (s : PortState) (out : List Out)
    (h : PortInv s out) : PortInv (onResult id d s).1 (out ++ (onResult id d s).2) := by
  unfold onResult
  cases hg : alGet id s.activeInvocations with
  | none =>
      apply portInv_append_nores _ _ _ _ h
      intro o ho
      rw [List.mem_singleton] at ho
      subst ho
      rfl
  | some inv =>
      obtain ⟨iact, iack, itim, irt⟩ := inv
      cases iack with
      | false =>
          dsimp only
          simp only [Bool.not_false]
          rw [if_pos trivial]
          exact onError_portInv id _ s out h
      | true =>
          cases hde : d.error with
          | some e =>
              dsimp only
              simp only [Bool.not_true]
              rw [if_neg (by decide : ¬(false = true))]
              dsimp only
              exact portInv_remove_emit id _ s out (alGet_some_mem hg) rfl h
          | none =>
              dsimp only
              simp only [Bool.not_true]
              rw [if_neg (by decide : ¬(false = true))]
              dsimp only
              exact portInv_remove_emit id _ s out (alGet_some_mem hg) rfl h

lemma insert_fresh_portInv (inv0 : Invocation) (s : PortState) (out : List Out)
    (hc : s.connected = true) (h : PortInv s out) :
    PortInv { s with invocationId := s.invocationId + 1,
                     activeInvocations := alSet s.invocationId inv0 s.activeInvocations }
      out := by
  obtain ⟨h1, h2, h3, h4, h5⟩ := h
  have hfresh : s.invocationId ∉ s.activeInvocations.map Prod.fst := fun hm =>
    absurd (h2 _ hm) (lt_irrefl _)
  have hset := alSet_not_mem s.invocationId inv0 s.activeInvocations hfresh
  refine ⟨?_, ?_, ?_, ?_, ?_⟩
  · simp only [hset, List.map_append, List.map_cons, List.map_nil]
    rw [List.nodup_append]
    refine ⟨h1, List.nodup_singleton _, ?_⟩
    intro a ha hb
    rw [List.mem_singleton] at hb
    subst hb
    exact hfresh ha
  · intro i hi
    simp only [hset, List.map_append, List.map_cons, List.map_nil,
      List.mem_append, List.mem_singleton] at hi
    rcases hi with hi | hi
    · exact Nat.lt_succ_of_lt (h2 i hi)
    · subst hi
      exact Nat.lt_succ_self _
  · intro i hlt
    have hlt2 : i < s.invocationId + 1 := hlt
    simp only [hset, List.map_append, List.map_cons, List.map_nil]
    by_cases hii : i = s.invocationId
    · subst hii
      rw [if_pos (by simp)]
      exact h4 _ (Nat.le_refl _)
    · have hi2 : i < s.invocationId := by omega
      rw [h3 i hi2]
      by_cases hm : i ∈ s.activeInvocations.map Prod.fst
      · rw [if_pos hm, if_pos (by simp [hm])]
      · rw [if_neg hm, if_neg (by simp [hm, hii])]
  · intro i hge
    have hge2 : s.invocationId + 1 ≤ i := hge
    exact h4 i (by omega)
  · intro hc2
    simp only at hc2
    rw [hc] at hc2
    exact absurd hc2 (by decide)

lemma invoke_portInv (action : String) (akt rt : Option Nat) (tf pf : Bool)
    (s : PortState) (out : List Out) (h : PortInv s out) :
    PortInv (invoke action akt rt tf pf s).1
      (out ++ (invoke action akt rt tf pf s).2) := by
  unfold invoke
  cases hcb : s.connected with
  | false =>
      rw [if_pos rfl]
      apply portInv_append_nores _ _ _ _ h
      intro o ho
      rw [List.mem_singleton] at ho
      subst ho
      rfl
  | true =>
      rw [if_neg (by decide : ¬(true = false))]
      have hins := insert_fresh_portInv
        { action := action, ack := false, timer := none, responseTimeout := rt }
        s out hcb h
      rw [hcb] at hins
      cases akt with
      | some a =>
          cases tf with
          | true =>
              dsimp only
              rw [if_pos rfl]
              exact onError_portInv _ _ _ out hins
          | false =>
              have hupd := updateInv_portInv s.invocationId
                { action := action, ack := false, timer := some TimerKind.ackTimer,
                  responseTimeout := rt } _ out hins
              cases pf with
              | true =>
                  dsimp only
                  rw [if_neg (by decide : ¬(false = true)), if_pos rfl]
                  exact onError_portInv _ _ _ out hupd
              | false =>
                  dsimp only
                  rw [if_neg (by decide : ¬(false = true)),
                    if_neg (by decide : ¬(false = true))]
                  simpa using hupd
      | none =>
          cases pf with
          | true =>
              dsimp only
              rw [if_pos rfl]
              exact onError_portInv _ _ _ out hins
          | false =>
              dsimp only
              rw [if_neg (by decide : ¬(false = true))]
              simpa using hins

lemma resCount_map_rejected (i : Nat) (f : Nat × Invocation → RejectReason)
    (l : List (Nat × Invocation)) (hn : (l.map Prod.fst).Nodup) :
    resCount i (l.map (fun p => Out.rejected p.1 (f p))) =
      if i ∈ l.map Prod.fst then 1 else 0 := by
  induction l with
  | nil => simp [resCount_nil]
  | cons p rest ih =>
      rw [List.map_cons, List.nodup_cons] at hn
      rw [List.map_cons, List.map_cons, resCount_cons, ih hn.2]
      simp only [outId]
      by_cases hip : p.1 = i
      · subst hip
        rw [if_pos rfl, if_neg hn.1, if_pos (List.mem_cons_self _ _)]
      · rw [if_neg (by simpa using hip), Nat.zero_add]
        by_cases hm : i ∈ rest.map Prod.fst
        · rw [if_pos hm, if_pos (List.mem_cons_of_mem _ hm)]
        · have hnm : i ∉ p.1 :: rest.map Prod.fst := by
            rw [List.mem_cons]
            push_neg
            exact ⟨fun he => hip he.symm, hm⟩
          rw [if_neg hm, if_neg hnm]

lemma onDisconnect_portInv (s : PortState) (out : List Out) (h : PortInv s out) :
    PortInv (onDisconnect s).1 (out ++ (onDisconnect s).2) := by
  unfold onDisconnect
  cases hcb : s.connected with
  | false =>
      rw [if_pos rfl]
      simpa using h
  | true =>
      rw [if_neg (by decide : ¬(true = false))]
      obtain ⟨h1, h2, h3, h4, h5⟩ := h
      have hfa := failAllLoop_spec s.activeInvocations { s with connected := false } rfl h1
      simp only at hfa ⊢
      rw [hfa]
      simp only
      refine ⟨by simp, by simp, ?_, ?_, fun _ => rfl⟩
      · intro i hlt
        rw [if_neg (by simp)]
        rw [← List.append_assoc, resCount_append, resCount_append]
        rw [resCount_single]
        rw [resCount_map_rejected i _ _ h1]
        have := h3 i hlt
        by_cases hm : i ∈ s.activeInvocations.map Prod.fst
        · rw [if_pos hm] at this
          rw [this, if_pos hm]
          rfl
        · rw [if_neg hm] at this
          rw [this, if_neg hm]
          rfl
      · intro i hge
        have hge2 : s.invocationId ≤ i := hge
        rw [← List.append_assoc, resCount_append, resCount_append]
        rw [resCount_single]
        rw [resCount_map_rejected i _ _ h1]
        have hnm : i ∉ s.activeInvocations.map Prod.fst := fun hm => by
          have := h2 i hm
          omega
        rw [if_neg hnm, h4 i hge2]
        rfl

lemma step_portInv (e : Event) (s : PortState) (out : List Out) (h : PortInv s out) :
    PortInv (step e s).1 (out ++ (step e s).2) := by
  cases e with
  | invokeCall a akt rt tf pf => exact invoke_portInv a akt rt tf pf s out h
  | ackMsg id tf => exact onAck_portInv id tf s out h
  | resultMsg id d => exact onResult_portInv id d s out h
  | localFail id e2 => exact onError_portInv id e2 s out h
  | disconnectEvent => exact onDisconnect_portInv s out h

lemma run_portInv (es : List Event) (s : PortState) (out : List Out)
    (h : PortInv s out) : PortInv (run es s).1 (out ++ (run es s).2) := by
  induction es generalizing s out with
  | nil => simpa [run] using h
  | cons e rest ih =>
      have h2 := ih (step e s).1 (out ++ (step e s).2) (step_portInv e s out h)
      simp only [run]
      rw [← List.append_assoc]
      exact h2

lemma portInv_initial : PortInv initialState [] := by
  refine ⟨List.nodup_nil, ?_, ?_, fun i _ => rfl, fun _ => rfl⟩
  · intro i hi
    simp [initialState] at hi
  · intro i hi
    simp [initialState] at hi

/-- C1: starting from a fresh port, any sequence of events (invoke calls,
incoming `ack` and `result` messages — duplicates included, local failures
such as timer expiry, disconnects) delivers at most one terminal resolution
per invocation id; and once the port is disconnected, every id ever allocated
(the allocated ids are exactly those below the final `_invocationId` counter)
has received exactly one terminal resolution.  Every resolving path removes
the invocation from `_activeInvocations` first, so later messages with the
same id find no entry and cannot resolve it a second time. -/
theorem invocation_resolved_exactly_once (es : List Event) (id : Nat) :
    resCount id (run es initialState).2 ≤ 1 ∧
    ((run es initialState).1.connected = false →
      id < (run es initialState).1.invocationId →
      resCount id (run es initialState).2 = 1) := by
  have h := run_portInv es initialState [] portInv_initial
  rw [List.nil_append] at h
  obtain ⟨h1, h2, h3, h4, h5⟩ := h
  constructor
  · by_cases hlt : id < (run es initialState).1.invocationId
    · have := h3 id hlt
      rw [this]
      split <;> omega
    · have := h4 id (Nat.le_of_not_lt hlt)
      omega
  · intro hc hlt
    have hempty := h5 hc
    have := h3 id hlt
    rw [hempty] at this
    simpa using this

/-- Witness for C1: one invocation started, then the transport disconnects;
id 0 receives exactly one terminal resolution. -/
theorem invocation_resolved_exactly_once_witness :
    (run witnessEvents initialState).1.connected = false ∧
    0 < (run witnessEvents initialState).1.invocationId ∧
    resCount 0 (run witnessEvents initialState).2 = 1 :=
  ⟨by decide, by decide,
    (invocation_resolved_exactly_once witnessEvents 0).2 (by decide) (by decide)⟩

end CrossFrameApi
